import Mathlib

/-!
# Accounter (accounting-reader.go)

A shallow embedding of the transfer accounter of `accounting-reader.go`.

Modelling conventions.

* `int64` values are mathematical integers; the one arithmetic instruction that can
  leave the `int64` range (`atomic.AddInt64`, and the subtraction in `write`) is followed
  by an explicit two's-complement reduction `wrap64`.
* `time.Time` is the number of nanoseconds since the zero `time.Time`; `time.Now()` is
  an explicit argument `now` of every function that reads the clock.
  `Time.Sub` saturates at the bounds of `time.Duration`, as the standard library does.
* A `float64` is the rational number it denotes.  Every conversion to `float64` and every
  `float64` division is followed by `roundFloat64`, rounding to the nearest value with a
  53-bit significand, ties to even.  The exponent is not bounded, so the model is exact
  for results in the normal range of `float64`, which contains every rate `write` can
  compute; infinities and NaN are not represented.
* The code is embedded sequentially.  The sampler goroutine `writer` only ever calls
  `Update`, so it appears as `Update` operations placed anywhere in an operation
  sequence.  The two atomic loads of `current` inside `Stat` read the same value.
* `sync.Once` is its `done` flag; a channel of `struct{}` that is only ever closed is
  its state, open or closed; closing a closed channel panics, modelled by `none`.
-/

namespace Minio

/-! ## Machine integers, time and channels -/

/-- Smallest value of an `int64`. -/
def minInt64 : Int := -9223372036854775808

/-- Largest value of an `int64`. -/
def maxInt64 : Int := 9223372036854775807

/-- Membership of the `int64` range. -/
def inInt64 (x : Int) : Prop := minInt64 ≤ x ∧ x ≤ maxInt64

instance (x : Int) : Decidable (inInt64 x) := by
  unfold inInt64; exact inferInstance

/-- Two's-complement reduction of an integer to the `int64` range. -/
def wrap64 (x : Int) : Int :=
  (x + 9223372036854775808) % 18446744073709551616 - 9223372036854775808

/-- The constant `time.Millisecond`, in nanoseconds. -/
def Millisecond : Int := 1000000

/-- The constant `time.Second`, in nanoseconds. -/
def Second : Int := 1000000000

/-- The method `t.Sub(u)` of `time.Time`: the difference in nanoseconds, saturated at the
smallest and largest `time.Duration`. -/
def Time.Sub (t u : Int) : Int :=
  if t - u < minInt64 then minInt64
  else if maxInt64 < t - u then maxInt64
  else t - u

/-! ## Binary64 arithmetic -/

/-- Rounding of a rational to the nearest integer, ties to the even one. -/
def roundHalfEven (x : ℚ) : Int :=
  let f := ⌊x⌋
  if x - f < 1 / 2 then f
  else if 1 / 2 < x - f then f + 1
  else if f % 2 = 0 then f else f + 1

/-- Rounding of a positive rational to a 53-bit significand: with `2 ^ k ≤ q < 2 ^ (k + 1)`
the result is the multiple of `2 ^ (k - 52)` nearest to `q`, ties to even. -/
def roundPos (q : ℚ) : ℚ :=
  let e := Int.log 2 q - 52
  (roundHalfEven (q / 2 ^ e) : ℚ) * 2 ^ e

/-- Rounding of a rational to the nearest `float64`, ties to even, as IEEE 754 binary64
does for results in its normal range. -/
def roundFloat64 (q : ℚ) : ℚ :=
  if q = 0 then 0 else if q < 0 then -roundPos (-q) else roundPos q

/-- The conversion `float64(x)` of an `int64`. -/
def float64OfInt64 (x : Int) : ℚ :=
  roundFloat64 x

/-- The quotient `x / y` of two `float64` values. -/
def float64Div (x y : ℚ) : ℚ :=
  roundFloat64 (x / y)

/-- State of a channel on which nothing is ever sent. -/
inductive Chan where
  | opened
  | closed
  deriving DecidableEq, Repr

/-- The builtin `close`: closing a closed channel panics (`none`). -/
def Chan.close : Chan → Option Chan
  | .opened => some .closed
  | .closed => none

/-! ## Data model -/

/-- The struct `Accounter`. -/
structure Accounter where
  current : Int
  total : Int
  StartTime : Int
  startValue : Int
  refreshRate : Int
  currentValue : Int
  finishOnce : Bool
  IsFinished : Chan
  Speed : ℚ
  lastWriteTime : Int
  lastWriteValue : Int
  deriving DecidableEq

/-- The struct `AccountStat`. -/
structure AccountStat where
  Status : String
  Total : Int
  Transferred : Int
  Speed : ℚ
  deriving DecidableEq

/-- The zero value of `AccountStat` (`var acntStat AccountStat`). -/
def AccountStat.zero : AccountStat :=
  { Status := "", Total := 0, Transferred := 0, Speed := 0 }

/-! ## Operations -/

/-- The constructor `NewAccounter(total)`, called when the clock reads `now`.  The fields
not named in the composite literal take their zero values.  The goroutine started by
`go acct.writer()` is represented by `Update` operations in operation sequences. -/
def NewAccounter (now : Int) (total : Int) : Accounter :=
  { current := 0
    total := total
    StartTime := now
    startValue := 0
    refreshRate := Millisecond * 200
    currentValue := -1
    finishOnce := false
    IsFinished := .opened
    Speed := 0
    lastWriteTime := 0
    lastWriteValue := 0 }

/-- The method `write(current)`, called when the clock reads `now`: returns the computed
rate and the updated accounter. -/
def Accounter.write (a : Accounter) (now : Int) (current : Int) : ℚ × Accounter :=
  let timeDiff := Time.Sub now a.lastWriteTime
  let valueDiff := wrap64 (current - a.lastWriteValue)
  let a1 := { a with lastWriteTime := now, lastWriteValue := current }
  if timeDiff > 0 then
    let speed : ℚ :=
      float64Div (float64OfInt64 valueDiff)
        (float64Div (float64OfInt64 timeDiff) (float64OfInt64 Second))
    (speed, { a1 with Speed := speed })
  else
    (0, a1)

/-- The method `JSON()`; the library call `json.MarshalIndent` is a parameter, and the
log line has no effect on the result. -/
def AccountStat.JSON (marshalIndent : AccountStat → String → String → String × Option String)
    (c : AccountStat) : String :=
  let c1 := { c with Status := "success" }
  (marshalIndent c1 "" " ").1

/-- The method `Stat()`, called when the clock reads `now`.  `finishOnce.Do` runs its
argument only while the flag is unset; `none` is the panic of closing a closed channel. -/
def Accounter.Stat (a : Accounter) (now : Int) : Option (AccountStat × Accounter) :=
  let acntStat := AccountStat.zero
  if a.finishOnce then
    some (acntStat, a)
  else
    match a.IsFinished.close with
    | none => none
    | some ch =>
      let a1 := { a with IsFinished := ch }
      let acntStat1 := { acntStat with Total := a1.total }
      let acntStat2 := { acntStat1 with Transferred := a1.current }
      let r := a1.write now a1.current
      some ({ acntStat2 with Speed := r.1 }, { r.2 with finishOnce := true })

/-- The method `Update()`, called when the clock reads `now`. -/
def Accounter.Update (a : Accounter) (now : Int) : Accounter :=
  let c := a.current
  if c ≠ a.currentValue then
    let a1 := (a.write now c).2
    { a1 with currentValue := c }
  else
    a

/-- The method `Set(n)`. -/
def Accounter.Set (a : Accounter) (n : Int) : Accounter :=
  { a with current := n }

/-- The method `Get()`. -/
def Accounter.Get (a : Accounter) : Int :=
  a.current

/-- The method `SetTotal(n)`. -/
def Accounter.SetTotal (a : Accounter) (n : Int) : Accounter :=
  { a with total := n }

/-- The method `Add(n)`: `atomic.AddInt64` returns the new value, reduced to `int64`. -/
def Accounter.Add (a : Accounter) (n : Int) : Int × Accounter :=
  let c := wrap64 (a.current + n)
  (c, { a with current := c })

/-- The method `Read(p)`: returns `(n, err)` and the updated accounter.  The deferred
function runs after the body and does not touch the named results. -/
def Accounter.Read (a : Accounter) (p : List UInt8) : (Int × Option String) × Accounter :=
  let n : Int := p.length
  let a1 := (a.Add n).2
  let a2 :=
    let n1 := a1.Get
    let t := a1.total
    if t > 0 ∧ n1 > t then a1.Set t else a1
  ((n, none), a2)

/-- The method `GetSpeed()`. -/
def Accounter.GetSpeed (a : Accounter) : ℚ :=
  a.Speed

/-! ## Operation sequences -/

/-- One call on an accounter.  `Update` and `Stat` carry the clock reading at the call. -/
inductive Op where
  | Add (n : Int)
  | Set (n : Int)
  | SetTotal (n : Int)
  | Get
  | Read (p : List UInt8)
  | Update (now : Int)
  | GetSpeed
  | Stat (now : Int)
  deriving DecidableEq

/-- The accounter after one call; `none` when the call panics. -/
def step (a : Accounter) : Op → Option Accounter
  | .Add n => some (a.Add n).2
  | .Set n => some (a.Set n)
  | .SetTotal n => some (a.SetTotal n)
  | .Get => some a
  | .Read p => some (a.Read p).2
  | .Update now => some (a.Update now)
  | .GetSpeed => some a
  | .Stat now => (a.Stat now).map Prod.snd

/-- The accounter after a sequence of calls; `none` when one of them panics. -/
def run : List Op → Accounter → Option Accounter
  | [], a => some a
  | op :: ops, a =>
    match step a op with
    | none => none
    | some a1 => run ops a1

/-- The calls `Add(n₁), …, Add(nₖ)` in order: the values they return and the accounter
after the last one. -/
def addAll : Accounter → List Int → List Int × Accounter
  | a, [] => ([], a)
  | a, n :: ns =>
    let r := a.Add n
    let rs := addAll r.2 ns
    (r.1 :: rs.1, rs.2)

/-- Recogniser of the calls `Add` and `Read`. -/
def Op.isAddOrRead : Op → Bool
  | .Add _ => true
  | .Read _ => true
  | _ => false

/-- Recogniser of the call `Stat`. -/
def Op.isStat : Op → Bool
  | .Stat _ => true
  | _ => false

/-- The calls whose effect on the counter C5 speaks of: every call but `Set`, with the
argument of `Add` non-negative. -/
def Op.isNonSet : Op → Bool
  | .Set _ => false
  | .Add n => decide (0 ≤ n)
  | _ => true

/-- Side condition under which a call does not lower the counter: `Add(n)` has `n ≥ 0` and
`current + n` within `int64`; `Read(p)` has `current + len(p)` within `int64` and the
counter not already above a positive total; `Set` never qualifies. -/
def Op.keepsCounter (a : Accounter) : Op → Prop
  | .Set _ => False
  | .Add n => 0 ≤ n ∧ inInt64 (a.current + n)
  | .Read p => inInt64 (a.current + p.length) ∧ ¬ (0 < a.total ∧ a.total < a.current)
  | _ => True

instance (a : Accounter) (op : Op) : Decidable (op.keepsCounter a) := by
  cases op <;> unfold Op.keepsCounter <;> exact inferInstance

/-- The total after one call: `SetTotal(n)` stores `n`, every other call keeps it. -/
def Op.newTotal (t : Int) : Op → Int
  | .SetTotal n => n
  | _ => t

/-- The argument of the most recent `SetTotal` in a sequence of calls, or the
constructor argument `total` when there is none. -/
def lastTotal (total : Int) (ops : List Op) : Int :=
  ops.foldl Op.newTotal total

/-- Number of times one call executes the statement `close(a.IsFinished)`: only `Stat`
contains it, inside the function passed to `finishOnce.Do`, which runs while the flag of
`finishOnce` is unset. -/
def closes (a : Accounter) : Op → Nat
  | .Stat _ => if a.finishOnce then 0 else 1
  | _ => 0

/-- Number of times a sequence of calls executes `close(a.IsFinished)`. -/
def closeCount : List Op → Accounter → Nat
  | [], _ => 0
  | op :: ops, a =>
    closes a op +
      match step a op with
      | none => 0
      | some a1 => closeCount ops a1

/-- The completion channel is closed exactly when `finishOnce` has fired. -/
def Inv (a : Accounter) : Prop :=
  a.IsFinished = .closed ↔ a.finishOnce = true

/-! ## Display form -/

/-- The conversion `int64(x)` of a `float64`: the fractional part is discarded, rounding
toward zero.  For a value outside the `int64` range Go leaves the result to the
implementation; the value returned here is the one produced on amd64, the smallest
`int64`. -/
def float64ToInt64 (x : ℚ) : Int :=
  let t := Int.tdiv x.num x.den
  if minInt64 ≤ t ∧ t ≤ maxInt64 then t else minInt64

/-- The local variable `speedBox` of `String()` after the conditional.  The argument
`format n` stands for the library expression `pb.Format(n).To(pb.U_BYTES).String()`. -/
def AccountStat.speedBox (format : Int → String) (c : AccountStat) : String :=
  let speedBox := format (float64ToInt64 c.Speed)
  if speedBox = "" then "0 MB" else speedBox ++ "/s"

/-- The method `String()`, over the same library formatter. -/
def AccountStat.String (format : Int → String) (c : AccountStat) : String :=
  "Total: " ++ format c.Total ++ ", Transferred: " ++ format c.Transferred ++
    ", Speed: " ++ c.speedBox format

/-! ## Predicates on calls and states -/

/-- Recogniser of the calls `Add`, `Set` and `Read`. -/
def Op.isAddSetRead : Op → Bool
  | .Add _ => true
  | .Set _ => true
  | .Read _ => true
  | _ => false

/-- The sampler has nothing to report: the counter and the last sampled value are both 0
and so is the stored rate. -/
def Idle (a : Accounter) : Prop :=
  a.current = 0 ∧ a.lastWriteValue = 0 ∧ a.Speed = 0

/-- Recogniser of the calls that neither move the counter nor are `Stat`: `Update`,
`Get`, `GetSpeed` and `SetTotal`. -/
def Op.isQuiet : Op → Bool
  | .Update _ => true
  | .Get => true
  | .GetSpeed => true
  | .SetTotal _ => true
  | _ => false

/-! ## Facts about binary64 rounding -/

theorem roundFloat64_zero : roundFloat64 0 = 0 := by
  simp [roundFloat64]

theorem float64Div_zero_left (y : ℚ) : float64Div 0 y = 0 := by
  simp [float64Div, roundFloat64_zero]

theorem roundHalfEven_eq {x : ℚ} {m : Int} (h1 : (m : ℚ) - 1 / 2 < x) (h2 : x < m + 1 / 2) :
    roundHalfEven x = m := by
  unfold roundHalfEven
  simp only
  by_cases hle : (m : ℚ) ≤ x
  · have hf : ⌊x⌋ = m := by
      rw [Int.floor_eq_iff]
      constructor
      · exact hle
      · linarith
    rw [hf, if_pos (by linarith)]
  · have hlt : x < m := lt_of_not_le hle
    have hf : ⌊x⌋ = m - 1 := by
      rw [Int.floor_eq_iff]
      push_cast
      constructor <;> linarith
    rw [hf]
    push_cast
    rw [if_neg (by linarith), if_pos (by linarith)]
    ring

theorem abs_roundHalfEven_sub_le (x : ℚ) : |(roundHalfEven x : ℚ) - x| ≤ 1 / 2 := by
  have h1 := Int.floor_le x
  have h2 := Int.lt_floor_add_one x
  unfold roundHalfEven
  simp only
  rw [abs_le]
  split
  · constructor <;> linarith
  · split
    · push_cast
      constructor <;> linarith
    · split
      · constructor <;> linarith
      · push_cast
        constructor <;> linarith

theorem Int_log_two_eq {q : ℚ} {k : Int} (h1 : (2 : ℚ) ^ k ≤ q) (h2 : q < (2 : ℚ) ^ (k + 1)) :
    Int.log 2 q = k := by
  have hq : 0 < q := lt_of_lt_of_le (by positivity) h1
  apply le_antisymm
  · have := (Int.lt_zpow_iff_log_lt (b := 2) (by norm_num) hq (x := k + 1)).1 (by exact_mod_cast h2)
    omega
  · exact (Int.zpow_le_iff_le_log (b := 2) (by norm_num) hq).1 (by exact_mod_cast h1)

theorem roundPos_eq {q : ℚ} (e m : Int) (h1 : (2 : ℚ) ^ (e + 52) ≤ q)
    (h2 : q < (2 : ℚ) ^ (e + 52 + 1))
    (h3 : (m : ℚ) - 1 / 2 < q / 2 ^ e) (h4 : q / 2 ^ e < m + 1 / 2) :
    roundPos q = m * 2 ^ e := by
  unfold roundPos
  simp only
  rw [Int_log_two_eq h1 h2]
  have he : e + 52 - 52 = e := by ring
  rw [he, roundHalfEven_eq h3 h4]

theorem roundFloat64_of_pos {q : ℚ} (h : 0 < q) : roundFloat64 q = roundPos q := by
  unfold roundFloat64
  rw [if_neg (ne_of_gt h), if_neg (not_lt.2 h.le)]

theorem roundFloat64_of_neg {q : ℚ} (h : q < 0) : roundFloat64 q = -roundPos (-q) := by
  unfold roundFloat64
  rw [if_neg (ne_of_lt h), if_pos h]

theorem roundPos_error {q : ℚ} (h : 0 < q) : |roundPos q - q| ≤ q / 2 ^ 53 := by
  unfold roundPos
  simp only
  set e := Int.log 2 q - 52 with he
  have hpe : (0 : ℚ) < 2 ^ e := by positivity
  have hlog : (2 : ℚ) ^ (Int.log 2 q) ≤ q := by
    have := Int.zpow_log_le_self (b := 2) (r := q) (by norm_num) h
    exact_mod_cast this
  have hr := abs_roundHalfEven_sub_le (q / 2 ^ e)
  have e1 : (roundHalfEven (q / 2 ^ e) : ℚ) * 2 ^ e - q
      = ((roundHalfEven (q / 2 ^ e) : ℚ) - q / 2 ^ e) * 2 ^ e := by
    field_simp
  rw [e1, abs_mul, abs_of_pos hpe]
  have e2 : (2 : ℚ) ^ (Int.log 2 q) = 2 ^ e * 2 ^ (52 : ℤ) := by
    rw [← zpow_add₀ (by norm_num : (2 : ℚ) ≠ 0)]
    congr 1
    omega
  have h52 : (2 : ℚ) ^ (52 : ℤ) = 2 ^ 52 := by norm_cast
  calc |(roundHalfEven (q / 2 ^ e) : ℚ) - q / 2 ^ e| * 2 ^ e
      ≤ 1 / 2 * 2 ^ e := by
        exact mul_le_mul_of_nonneg_right hr hpe.le
    _ = (2 ^ e * 2 ^ (52 : ℤ)) / 2 ^ 53 := by
        rw [h52]; field_simp; ring
    _ ≤ q / 2 ^ 53 := by
        rw [← e2]
        exact div_le_div_of_nonneg_right hlog (by positivity)

theorem roundFloat64_error (q : ℚ) : |roundFloat64 q - q| ≤ |q| / 2 ^ 53 := by
  rcases lt_trichotomy q 0 with h | h | h
  · rw [roundFloat64_of_neg h, abs_of_neg h]
    have := roundPos_error (q := -q) (by linarith)
    have e : -roundPos (-q) - q = -(roundPos (-q) - -q) := by ring
    rw [e, abs_neg]
    exact this
  · subst h
    simp [roundFloat64_zero]
  · rw [roundFloat64_of_pos h, abs_of_pos h]
    exact roundPos_error h

theorem float64OfInt64_zero : float64OfInt64 0 = 0 := by
  simp [float64OfInt64, roundFloat64_zero]

theorem roundFloat64_rel (q : ℚ) :
    ∃ d : ℚ, |d| ≤ 1 / 2 ^ 53 ∧ roundFloat64 q = q * (1 + d) := by
  by_cases hq : q = 0
  · subst hq
    exact ⟨0, by norm_num, by simp [roundFloat64_zero]⟩
  · refine ⟨(roundFloat64 q - q) / q, ?_, by field_simp⟩
    rw [abs_div, div_le_iff₀ (abs_pos.2 hq)]
    have := roundFloat64_error q
    calc |roundFloat64 q - q| ≤ |q| / 2 ^ 53 := this
      _ = 1 / 2 ^ 53 * |q| := by ring

theorem quotient_rel_error {u d1 d2 d3 d4 : ℚ} (hu0 : 0 ≤ u) (hu : u ≤ 1 / 16)
    (h1 : |d1| ≤ u) (h2 : |d2| ≤ u) (h3 : |d3| ≤ u) (h4 : |d4| ≤ u) :
    |(1 + d1) * (1 + d4) / ((1 + d2) * (1 + d3)) - 1| ≤ 8 * u := by
  rw [abs_le] at h1 h2 h3 h4
  have hN_le : (1 + d1) * (1 + d4) ≤ (1 + u) * (1 + u) :=
    mul_le_mul (by linarith) (by linarith) (by linarith) (by linarith)
  have hN_ge : (1 - u) * (1 - u) ≤ (1 + d1) * (1 + d4) :=
    mul_le_mul (by linarith) (by linarith) (by linarith) (by linarith)
  have hD_le : (1 + d2) * (1 + d3) ≤ (1 + u) * (1 + u) :=
    mul_le_mul (by linarith) (by linarith) (by linarith) (by linarith)
  have hD_ge : (1 - u) * (1 - u) ≤ (1 + d2) * (1 + d3) :=
    mul_le_mul (by linarith) (by linarith) (by linarith) (by linarith)
  have hDpos : 0 < (1 + d2) * (1 + d3) := by
    have : 0 < (1 - u) * (1 - u) := by
      have : 0 < 1 - u := by linarith
      positivity
    linarith
  rw [abs_le]
  constructor
  · rw [le_sub_iff_add_le, le_div_iff₀ hDpos]
    nlinarith [mul_nonneg hu0 hu0, mul_nonneg (mul_nonneg hu0 hu0) hu0]
  · rw [sub_le_iff_le_add, div_le_iff₀ hDpos]
    nlinarith [mul_nonneg hu0 hu0, mul_nonneg (mul_nonneg hu0 hu0) hu0]

theorem float64OfInt64_Second : float64OfInt64 1000000000 = 1000000000 := by
  unfold float64OfInt64
  rw [roundFloat64_of_pos (by norm_num)]
  rw [roundPos_eq (-23) (1000000000 * 2 ^ 23) (by norm_num) (by norm_num) (by norm_num)
    (by norm_num)]
  norm_num

theorem speed_rel_error (v t : Int) (ht : 0 < t) :
    |float64Div (float64OfInt64 v) (float64Div (float64OfInt64 t) (float64OfInt64 1000000000))
        - (v : ℚ) * 1000000000 / (t : ℚ)|
      ≤ |(v : ℚ) * 1000000000 / (t : ℚ)| / 2 ^ 50 := by
  obtain ⟨d1, hd1, e1⟩ := roundFloat64_rel (v : ℚ)
  obtain ⟨d2, hd2, e2⟩ := roundFloat64_rel (t : ℚ)
  obtain ⟨d3, hd3, e3⟩ := roundFloat64_rel ((t : ℚ) * (1 + d2) / 1000000000)
  obtain ⟨d4, hd4, e4⟩ :=
    roundFloat64_rel ((v : ℚ) * (1 + d1) / ((t : ℚ) * (1 + d2) / 1000000000 * (1 + d3)))
  have htq : (0 : ℚ) < t := by exact_mod_cast ht
  have hb2 := abs_le.1 hd2
  have hb3 := abs_le.1 hd3
  have hp2 : (0 : ℚ) < 1 + d2 := by
    have : (1 : ℚ) / 2 ^ 53 < 1 := by norm_num
    linarith [hb2.1]
  have hp3 : (0 : ℚ) < 1 + d3 := by
    have : (1 : ℚ) / 2 ^ 53 < 1 := by norm_num
    linarith [hb3.1]
  have hS : float64Div (float64OfInt64 v)
      (float64Div (float64OfInt64 t) (float64OfInt64 1000000000))
      = (v : ℚ) * 1000000000 / (t : ℚ) *
        ((1 + d1) * (1 + d4) / ((1 + d2) * (1 + d3))) := by
    rw [float64OfInt64_Second]
    unfold float64Div float64OfInt64
    rw [e1, e2, e3, e4]
    field_simp
    ring
  have hq := quotient_rel_error (u := 1 / 2 ^ 53) (by norm_num) (by norm_num) hd1 hd2 hd3 hd4
  rw [hS]
  have e5 : (v : ℚ) * 1000000000 / (t : ℚ) * ((1 + d1) * (1 + d4) / ((1 + d2) * (1 + d3)))
      - (v : ℚ) * 1000000000 / (t : ℚ)
      = (v : ℚ) * 1000000000 / (t : ℚ) * ((1 + d1) * (1 + d4) / ((1 + d2) * (1 + d3)) - 1) := by
    ring
  rw [e5, abs_mul]
  calc |(v : ℚ) * 1000000000 / (t : ℚ)| * |(1 + d1) * (1 + d4) / ((1 + d2) * (1 + d3)) - 1|
      ≤ |(v : ℚ) * 1000000000 / (t : ℚ)| * (8 * (1 / 2 ^ 53)) :=
        mul_le_mul_of_nonneg_left hq (abs_nonneg _)
    _ = |(v : ℚ) * 1000000000 / (t : ℚ)| / 2 ^ 50 := by
        norm_num
        ring

/-! ## Basic facts -/

theorem wrap64_of_inInt64 {x : Int} (h : inInt64 x) : wrap64 x = x := by
  unfold inInt64 minInt64 maxInt64 at h
  unfold wrap64
  omega

theorem wrap64_inInt64 (x : Int) : inInt64 (wrap64 x) := by
  unfold inInt64 minInt64 maxInt64 wrap64
  omega

theorem run_append (xs ys : List Op) (a : Accounter) :
    run (xs ++ ys) a = (run xs a).bind (run ys) := by
  induction xs generalizing a with
  | nil => simp [run]
  | cons x xs ih =>
    simp only [List.cons_append, run]
    cases step a x with
    | none => simp
    | some a1 => simpa using ih a1

theorem Read_current_le_total (a : Accounter) (p : List UInt8) (h : 0 < a.total) :
    (a.Read p).2.current ≤ a.total := by
  simp only [Accounter.Read, Accounter.Add, Accounter.Get, Accounter.Set]
  split
  · simp
  · rename_i hc
    simp only [gt_iff_lt, not_and, not_lt] at hc
    exact hc h

theorem Read_total (a : Accounter) (p : List UInt8) : (a.Read p).2.total = a.total := by
  simp only [Accounter.Read, Accounter.Add, Accounter.Get, Accounter.Set]
  split <;> rfl

theorem run_addOrRead (ops : List Op) (a : Accounter)
    (h : ∀ op ∈ ops, op.isAddOrRead = true) :
    ∃ b, run ops a = some b ∧ b.total = a.total := by
  induction ops generalizing a with
  | nil => exact ⟨a, rfl, rfl⟩
  | cons op ops ih =>
    have hop := h op (List.mem_cons_self _ _)
    have hrest : ∀ o ∈ ops, o.isAddOrRead = true := fun o ho => h o (List.mem_cons_of_mem _ ho)
    cases op with
    | Add n =>
      obtain ⟨b, hb, ht⟩ := ih (a.Add n).2 hrest
      exact ⟨b, by simpa [run, step] using hb, by simpa [Accounter.Add] using ht⟩
    | Read p =>
      obtain ⟨b, hb, ht⟩ := ih (a.Read p).2 hrest
      exact ⟨b, by simpa [run, step] using hb, by rw [ht, Read_total]⟩
    | Set n => simp [Op.isAddOrRead] at hop
    | SetTotal n => simp [Op.isAddOrRead] at hop
    | Get => simp [Op.isAddOrRead] at hop
    | Update t => simp [Op.isAddOrRead] at hop
    | GetSpeed => simp [Op.isAddOrRead] at hop
    | Stat t => simp [Op.isAddOrRead] at hop

theorem addAll_spec (ns : List Int) (a : Accounter)
    (h : ∀ k ≤ ns.length, inInt64 (a.current + (ns.take k).sum)) :
    (addAll a ns).2.current = a.current + ns.sum ∧
    (addAll a ns).1 = (List.range ns.length).map (fun i => a.current + (ns.take (i + 1)).sum) := by
  induction ns generalizing a with
  | nil => simp [addAll]
  | cons n ns ih =>
    have h1 : wrap64 (a.current + n) = a.current + n := by
      apply wrap64_of_inInt64
      simpa using h 1 (by simp)
    have hcur : (a.Add n).2.current = a.current + n := by
      simp [Accounter.Add, h1]
    have h2 : ∀ k ≤ ns.length, inInt64 ((a.Add n).2.current + (ns.take k).sum) := by
      intro k hk
      have := h (k + 1) (by simpa using hk)
      rw [hcur]
      simpa [add_assoc] using this
    obtain ⟨e1, e2⟩ := ih (a.Add n).2 h2
    constructor
    · simp only [addAll, e1, hcur, List.sum_cons]
      ring
    · simp only [addAll, e2, hcur, List.length_cons, List.range_succ_eq_map, List.map_cons,
        List.map_map]
      congr 1
      · simp [Accounter.Add, h1]
      · apply List.map_congr_left
        intro i _
        simp [add_assoc]

theorem run_map_Add (ns : List Int) (a : Accounter) :
    run (ns.map Op.Add) a = some (addAll a ns).2 := by
  induction ns generalizing a with
  | nil => rfl
  | cons n ns ih => simpa [run, step, addAll] using ih (a.Add n).2

theorem write_frame (a : Accounter) (now c : Int) :
    (a.write now c).2.current = a.current ∧ (a.write now c).2.total = a.total ∧
    (a.write now c).2.finishOnce = a.finishOnce ∧
    (a.write now c).2.IsFinished = a.IsFinished := by
  unfold Accounter.write
  simp only
  split <;> exact ⟨rfl, rfl, rfl, rfl⟩

theorem Update_frame (a : Accounter) (now : Int) :
    (a.Update now).current = a.current ∧ (a.Update now).total = a.total ∧
    (a.Update now).finishOnce = a.finishOnce ∧
    (a.Update now).IsFinished = a.IsFinished := by
  unfold Accounter.Update
  simp only
  split
  · exact write_frame a now a.current
  · exact ⟨rfl, rfl, rfl, rfl⟩

theorem Read_frame (a : Accounter) (p : List UInt8) :
    (a.Read p).2.finishOnce = a.finishOnce ∧ (a.Read p).2.IsFinished = a.IsFinished := by
  simp only [Accounter.Read, Accounter.Add, Accounter.Get, Accounter.Set]
  split <;> exact ⟨rfl, rfl⟩

theorem Stat_first (a : Accounter) (now : Int) (hf : a.finishOnce = false)
    (hc : a.IsFinished = .opened) :
    ∃ b, a.Stat now = some
        ({ Status := "", Total := a.total, Transferred := a.current,
           Speed := ({ a with IsFinished := .closed }.write now a.current).1 }, b) ∧
      b.current = a.current ∧ b.total = a.total ∧ b.finishOnce = true ∧
      b.IsFinished = .closed := by
  have hw := write_frame { a with IsFinished := .closed } now a.current
  refine ⟨{ ({ a with IsFinished := .closed }.write now a.current).2 with finishOnce := true },
    ?_, ?_, ?_, rfl, ?_⟩
  · simp only [Accounter.Stat, hf, hc, Chan.close, AccountStat.zero]
    rfl
  · exact hw.1
  · exact hw.2.1
  · exact hw.2.2.2

theorem Stat_first_eq (a : Accounter) (now : Int) (hf : a.finishOnce = false)
    (hc : a.IsFinished = .opened) :
    a.Stat now = some
      ({ Status := "", Total := a.total, Transferred := a.current,
         Speed := ({ a with IsFinished := .closed }.write now a.current).1 },
       { ({ a with IsFinished := .closed }.write now a.current).2 with finishOnce := true }) := by
  simp only [Accounter.Stat, hf, hc, Chan.close, AccountStat.zero]
  rfl

theorem Stat_again (a : Accounter) (now : Int) (hf : a.finishOnce = true) :
    a.Stat now = some (AccountStat.zero, a) := by
  simp [Accounter.Stat, hf]

theorem step_Inv (a : Accounter) (op : Op) (h : Inv a) :
    ∃ b, step a op = some b ∧ Inv b ∧ b.finishOnce = (a.finishOnce || op.isStat) := by
  cases op with
  | Add n => exact ⟨_, rfl, h, by simp [Op.isStat, Accounter.Add]⟩
  | Set n => exact ⟨_, rfl, h, by simp [Op.isStat, Accounter.Set]⟩
  | SetTotal n => exact ⟨_, rfl, h, by simp [Op.isStat, Accounter.SetTotal]⟩
  | Get => exact ⟨_, rfl, h, by simp [Op.isStat]⟩
  | GetSpeed => exact ⟨_, rfl, h, by simp [Op.isStat]⟩
  | Read p =>
    obtain ⟨e1, e2⟩ := Read_frame a p
    exact ⟨_, rfl, by unfold Inv; rw [e1, e2]; exact h, by simp [Op.isStat, e1]⟩
  | Update t =>
    obtain ⟨_, _, e1, e2⟩ := Update_frame a t
    exact ⟨_, rfl, by unfold Inv; rw [e1, e2]; exact h, by simp [Op.isStat, e1]⟩
  | Stat t =>
    cases hf : a.finishOnce with
    | true =>
      refine ⟨a, ?_, h, by simp [hf]⟩
      simp [step, Stat_again a t hf]
    | false =>
      have hc : a.IsFinished = .opened := by
        unfold Inv at h
        cases hch : a.IsFinished with
        | opened => rfl
        | closed => rw [hf] at h; exact absurd (h.1 hch) (by decide)
      obtain ⟨b, hb, _, _, hbf, hbc⟩ := Stat_first a t hf hc
      refine ⟨b, ?_, ?_, by simp [hbf, Op.isStat]⟩
      · simp [step, hb]
      · unfold Inv; simp [hbf, hbc]

theorem run_Inv (ops : List Op) (a : Accounter) (h : Inv a) :
    ∃ b, run ops a = some b ∧ Inv b ∧ b.finishOnce = (a.finishOnce || ops.any Op.isStat) := by
  induction ops generalizing a with
  | nil => exact ⟨a, rfl, h, by simp⟩
  | cons op ops ih =>
    obtain ⟨a1, h1, hi1, hf1⟩ := step_Inv a op h
    obtain ⟨b, hb, hib, hfb⟩ := ih a1 hi1
    refine ⟨b, by simp [run, h1, hb], hib, ?_⟩
    rw [hfb, hf1, List.any_cons, Bool.or_assoc]

theorem NewAccounter_Inv (now total : Int) : Inv (NewAccounter now total) := by
  simp [Inv, NewAccounter]

theorem run_reachable_Inv {now total : Int} {ops : List Op} {a : Accounter}
    (hr : run ops (NewAccounter now total) = some a) : Inv a := by
  obtain ⟨b, hb, hi, _⟩ := run_Inv ops _ (NewAccounter_Inv now total)
  rw [hr] at hb
  cases hb
  exact hi

theorem step_Stat_frame (a : Accounter) (t : Int) (h : Inv a) :
    ∃ b, step a (Op.Stat t) = some b ∧ b.current = a.current ∧ b.total = a.total := by
  cases hf : a.finishOnce with
  | true => exact ⟨a, by simp [step, Stat_again a t hf], rfl, rfl⟩
  | false =>
    have hc : a.IsFinished = .opened := by
      unfold Inv at h
      cases hch : a.IsFinished with
      | opened => rfl
      | closed => rw [hf] at h; exact absurd (h.1 hch) (by decide)
    obtain ⟨b, hb, h1, h2, _, _⟩ := Stat_first a t hf hc
    exact ⟨b, by simp [step, hb], h1, h2⟩

theorem step_total (a : Accounter) (op : Op) (h : Inv a) :
    ∃ b, step a op = some b ∧ b.total = Op.newTotal a.total op := by
  cases op with
  | Add n => exact ⟨_, rfl, rfl⟩
  | Set n => exact ⟨_, rfl, rfl⟩
  | SetTotal n => exact ⟨_, rfl, rfl⟩
  | Get => exact ⟨_, rfl, rfl⟩
  | GetSpeed => exact ⟨_, rfl, rfl⟩
  | Read p => exact ⟨_, rfl, Read_total a p⟩
  | Update t => exact ⟨_, rfl, (Update_frame a t).2.1⟩
  | Stat t =>
    obtain ⟨b, hb, _, h2⟩ := step_Stat_frame a t h
    exact ⟨b, hb, h2⟩

theorem run_total (ops : List Op) (a : Accounter) (h : Inv a) :
    ∃ b, run ops a = some b ∧ b.total = lastTotal a.total ops := by
  induction ops generalizing a with
  | nil => exact ⟨a, rfl, rfl⟩
  | cons op ops ih =>
    obtain ⟨a1, h1, ht1⟩ := step_total a op h
    obtain ⟨a2, h2, hi2, _⟩ := step_Inv a op h
    rw [h1] at h2
    cases h2
    obtain ⟨b, hb, htb⟩ := ih a1 hi2
    refine ⟨b, by simp [run, h1, hb], ?_⟩
    rw [htb, ht1]
    rfl

theorem run_noStat (now total : Int) (ops : List Op) (hns : ∀ op ∈ ops, op.isStat = false) :
    ∃ a, run ops (NewAccounter now total) = some a ∧ a.finishOnce = false ∧
      a.IsFinished = .opened ∧ a.total = lastTotal total ops := by
  obtain ⟨a, ha, hi, hf⟩ := run_Inv ops _ (NewAccounter_Inv now total)
  obtain ⟨a1, ha1, ht⟩ := run_total ops _ (NewAccounter_Inv now total)
  rw [ha] at ha1
  cases ha1
  have hany : ops.any Op.isStat = false := by
    rw [List.any_eq_false]
    intro op hop
    simp [hns op hop]
  have hf2 : a.finishOnce = false := by
    rw [hf, hany]
    rfl
  refine ⟨a, ha, hf2, ?_, by simpa [NewAccounter] using ht⟩
  unfold Inv at hi
  cases hch : a.IsFinished with
  | opened => rfl
  | closed => rw [hf2] at hi; exact absurd (hi.1 hch) (by decide)

theorem closeCount_Inv (ops : List Op) (a : Accounter) (h : Inv a) :
    closeCount ops a = if a.finishOnce || !(ops.any Op.isStat) then 0 else 1 := by
  induction ops generalizing a with
  | nil => simp [closeCount]
  | cons op ops ih =>
    obtain ⟨a1, h1, hi1, hf1⟩ := step_Inv a op h
    simp only [closeCount, h1, ih a1 hi1, hf1, List.any_cons]
    rcases Bool.eq_false_or_eq_true a.finishOnce with hfa | hfa <;>
      rcases Bool.eq_false_or_eq_true (ops.any Op.isStat) with hany | hany <;>
      cases op <;> simp [closes, Op.isStat, hfa, hany]

/-! ## Claims -/

/-- C1, as stated, fails: `Add` does not clamp.  On `NewAccounter(10)` the single call
`Add(20)` leaves `Get() = 20`, above the total. -/
theorem C1_Add_exceeds_total :
    ¬ ∀ (now T : Int) (ns : List Int), 0 < T → T < ns.sum →
        ∀ k a, run ((ns.take k).map Op.Add) (NewAccounter now T) = some a → a.Get ≤ T := by
  intro h
  have h1 := h 0 10 [20] (by decide) (by decide) 1 ((NewAccounter 0 10).Add 20).2 (by decide)
  revert h1
  decide

/-- C1 (amended): on a tracker built by `NewAccounter(T)` with `T > 0`, after any sequence
of `Add` and `Read` calls a further `Read` leaves `Get() ≤ T`: it is `Read` that clamps
the counter down to the total.  `Add` only stores the (wrapped) sum, whatever the total. -/
theorem C1_Read_clamps (now T : Int) (hT : 0 < T) (ops : List Op)
    (hops : ∀ op ∈ ops, op.isAddOrRead = true) (p : List UInt8) :
    (∃ a, run (ops ++ [Op.Read p]) (NewAccounter now T) = some a ∧ a.Get ≤ T) ∧
    ∀ (a : Accounter) (n : Int), (a.Add n).2.Get = wrap64 (a.Get + n) := by
  refine ⟨?_, fun a n => rfl⟩
  obtain ⟨b, hb, ht⟩ := run_addOrRead ops (NewAccounter now T) hops
  have htot : b.total = T := by simpa [NewAccounter] using ht
  refine ⟨(b.Read p).2, ?_, ?_⟩
  · simp [run_append, hb, run, step]
  · have := Read_current_le_total b p (by rw [htot]; exact hT)
    simpa [Accounter.Get, htot] using this

theorem C1_Read_clamps_witness :
    (0 : Int) < 10 ∧ (∀ op ∈ [Op.Add 20], op.isAddOrRead = true) ∧
    ((∃ a, run ([Op.Add 20] ++ [Op.Read [1, 2]]) (NewAccounter 0 10) = some a ∧ a.Get ≤ 10) ∧
      ∀ (a : Accounter) (n : Int), (a.Add n).2.Get = wrap64 (a.Get + n)) :=
  ⟨by decide, by decide, C1_Read_clamps 0 10 (by decide) [Op.Add 20] (by decide) [1, 2]⟩

/-- C2: on a tracker built by `NewAccounter(0)`, when every running sum of `n₁, …, nₖ` is
within the `int64` range, the calls `Add(n₁), …, Add(nₖ)` leave `Get()` equal to
`n₁ + … + nₖ`, the i-th call returns `n₁ + … + nᵢ`, and every `Add` returns the value that
`Get()` reads right after it. -/
theorem C2_Add_sum (now : Int) (ns : List Int)
    (h : ∀ k ≤ ns.length, inInt64 ((ns.take k).sum)) :
    run (ns.map Op.Add) (NewAccounter now 0) = some (addAll (NewAccounter now 0) ns).2 ∧
    (addAll (NewAccounter now 0) ns).2.Get = ns.sum ∧
    (addAll (NewAccounter now 0) ns).1 =
      (List.range ns.length).map (fun i => (ns.take (i + 1)).sum) ∧
    ∀ (a : Accounter) (n : Int), (a.Add n).1 = (a.Add n).2.Get := by
  have h0 : ∀ k ≤ ns.length, inInt64 ((NewAccounter now 0).current + (ns.take k).sum) := by
    intro k hk
    simpa [NewAccounter] using h k hk
  obtain ⟨e1, e2⟩ := addAll_spec ns (NewAccounter now 0) h0
  refine ⟨run_map_Add ns _, ?_, ?_, fun a n => rfl⟩
  · simpa [Accounter.Get, NewAccounter] using e1
  · simpa [NewAccounter] using e2

theorem C2_Add_sum_witness :
    (∀ k ≤ [5, -2, 7].length, inInt64 (([5, -2, 7].take k).sum)) ∧
    (run ([5, -2, 7].map Op.Add) (NewAccounter 0 0) = some (addAll (NewAccounter 0 0) [5, -2, 7]).2 ∧
    (addAll (NewAccounter 0 0) [5, -2, 7]).2.Get = [5, -2, 7].sum ∧
    (addAll (NewAccounter 0 0) [5, -2, 7]).1 =
      (List.range [5, -2, 7].length).map (fun i => (([5, -2, 7] : List Int).take (i + 1)).sum) ∧
    ∀ (a : Accounter) (n : Int), (a.Add n).1 = (a.Add n).2.Get) :=
  ⟨by decide, C2_Add_sum 0 [5, -2, 7] (by decide)⟩

/-- C3: when `c + len(p)` is within the `int64` range, `Read(p)` returns `(len(p), nil)`
and leaves the counter at `min(c + len(p), total)` when `total > 0` and at `c + len(p)`
when `total ≤ 0`; with `total > 0` the counter after `Read` does not exceed `total`. -/
theorem C3_Read (a : Accounter) (p : List UInt8) (h : inInt64 (a.current + p.length)) :
    (a.Read p).1 = ((p.length : Int), none) ∧
    (0 < a.total → (a.Read p).2.Get = min (a.Get + p.length) a.total) ∧
    (a.total ≤ 0 → (a.Read p).2.Get = a.Get + p.length) ∧
    (0 < a.total → (a.Read p).2.Get ≤ a.total) := by
  have hw := wrap64_of_inInt64 h
  refine ⟨rfl, ?_, ?_, fun ht => Read_current_le_total a p ht⟩
  · intro ht
    simp only [Accounter.Read, Accounter.Add, Accounter.Get, Accounter.Set, hw]
    split
    · rename_i hc
      simp only [gt_iff_lt] at hc
      simp [min_eq_right hc.2.le]
    · rename_i hc
      simp only [gt_iff_lt, not_and, not_lt] at hc
      simp [min_eq_left (hc ht)]
  · intro ht
    simp only [Accounter.Read, Accounter.Add, Accounter.Get, Accounter.Set, hw]
    split
    · rename_i hc
      simp only [gt_iff_lt] at hc
      omega
    · rfl

theorem C3_Read_witness :
    inInt64 ((NewAccounter 0 5).current + ([1, 2, 3, 4, 5, 6, 7] : List UInt8).length) ∧
    (((NewAccounter 0 5).Read [1, 2, 3, 4, 5, 6, 7]).1 =
        ((([1, 2, 3, 4, 5, 6, 7] : List UInt8).length : Int), none) ∧
      (0 < (NewAccounter 0 5).total → ((NewAccounter 0 5).Read [1, 2, 3, 4, 5, 6, 7]).2.Get =
        min ((NewAccounter 0 5).Get + ([1, 2, 3, 4, 5, 6, 7] : List UInt8).length)
          (NewAccounter 0 5).total) ∧
      ((NewAccounter 0 5).total ≤ 0 → ((NewAccounter 0 5).Read [1, 2, 3, 4, 5, 6, 7]).2.Get =
        (NewAccounter 0 5).Get + ([1, 2, 3, 4, 5, 6, 7] : List UInt8).length) ∧
      (0 < (NewAccounter 0 5).total →
        ((NewAccounter 0 5).Read [1, 2, 3, 4, 5, 6, 7]).2.Get ≤ (NewAccounter 0 5).total)) :=
  ⟨by decide, C3_Read (NewAccounter 0 5) [1, 2, 3, 4, 5, 6, 7] (by decide)⟩

/-- C4: for every tracker state and every `v`, `Set(v)` followed by `Get()` returns `v`,
and `Set` changes no field other than `current`: `total`, `Speed`, `lastWriteTime`,
`lastWriteValue`, `currentValue` and the completion state keep their values. -/
theorem C4_Set_Get (a : Accounter) (v : Int) :
    (a.Set v).Get = v ∧
    (a.Set v).total = a.total ∧ (a.Set v).Speed = a.Speed ∧
    (a.Set v).lastWriteTime = a.lastWriteTime ∧ (a.Set v).lastWriteValue = a.lastWriteValue ∧
    (a.Set v).currentValue = a.currentValue ∧
    { a.Set v with current := a.current } = a :=
  ⟨rfl, rfl, rfl, rfl, rfl, rfl, rfl⟩

/-- C5, as stated, fails.  After `NewAccounter(0)`, `Add(100)`, `SetTotal(50)` the call
`Read` of an empty slice lowers the counter from 100 to 50; and after
`Add(9223372036854775807)` the call `Add(1)` wraps the counter around to the smallest
`int64`. -/
theorem C5_counter_decreases :
    (¬ ∀ (now total : Int) (ops : List Op) (a : Accounter) (p : List UInt8) (b : Accounter),
        run ops (NewAccounter now total) = some a → (Op.Read p).isNonSet = true →
        step a (Op.Read p) = some b → a.current ≤ b.current) ∧
    (¬ ∀ (now total : Int) (ops : List Op) (a : Accounter) (n : Int) (b : Accounter),
        run ops (NewAccounter now total) = some a → (Op.Add n).isNonSet = true →
        step a (Op.Add n) = some b → a.current ≤ b.current) := by
  constructor
  · intro h
    have h1 := h 0 0 [Op.Add 100, Op.SetTotal 50]
      (((NewAccounter 0 0).Add 100).2.SetTotal 50) []
      (((((NewAccounter 0 0).Add 100).2.SetTotal 50)).Read []).2 (by decide) (by decide)
      (by decide)
    revert h1
    decide
  · intro h
    have h1 := h 0 0 [Op.Add 9223372036854775807]
      ((NewAccounter 0 0).Add 9223372036854775807).2 1
      ((((NewAccounter 0 0).Add 9223372036854775807).2).Add 1).2 (by decide) (by decide)
      (by decide)
    revert h1
    decide

/-- C5 (amended): in every state reached from `NewAccounter`, every call other than `Set`
completes and leaves the counter greater than or equal to its value before, provided
that for `Add(n)` we have `n ≥ 0` and `current + n` within `int64`, and for `Read(p)` we
have `current + len(p)` within `int64` and the counter not already above a positive
total. -/
theorem C5_counter_monotone (now total : Int) (ops : List Op) (a : Accounter)
    (hr : run ops (NewAccounter now total) = some a) (op : Op) (hop : op.keepsCounter a) :
    ∃ b, step a op = some b ∧ a.current ≤ b.current := by
  have hi := run_reachable_Inv hr
  cases op with
  | Set n => exact absurd hop (by simp [Op.keepsCounter])
  | Add n =>
    obtain ⟨h0, h1⟩ := hop
    refine ⟨_, rfl, ?_⟩
    simp only [Accounter.Add, wrap64_of_inInt64 h1]
    omega
  | SetTotal n => exact ⟨_, rfl, le_refl _⟩
  | Get => exact ⟨_, rfl, le_refl _⟩
  | GetSpeed => exact ⟨_, rfl, le_refl _⟩
  | Update t => exact ⟨_, rfl, by rw [(Update_frame a t).1]⟩
  | Stat t =>
    obtain ⟨b, hb, h1, _⟩ := step_Stat_frame a t hi
    exact ⟨b, hb, by rw [h1]⟩
  | Read p =>
    obtain ⟨h1, h2⟩ := hop
    refine ⟨_, rfl, ?_⟩
    simp only [Accounter.Read, Accounter.Add, Accounter.Get, Accounter.Set,
      wrap64_of_inInt64 h1]
    split
    · rename_i hc
      simp only [gt_iff_lt] at hc
      simp only
      omega
    · simp only
      omega

theorem C5_counter_monotone_witness :
    run [Op.Add 3] (NewAccounter 0 10) = some ((NewAccounter 0 10).Add 3).2 ∧
    (Op.Read [1, 2]).keepsCounter ((NewAccounter 0 10).Add 3).2 ∧
    ∃ b, step ((NewAccounter 0 10).Add 3).2 (Op.Read [1, 2]) = some b ∧
      ((NewAccounter 0 10).Add 3).2.current ≤ b.current :=
  ⟨by decide, by decide,
    C5_counter_monotone 0 10 [Op.Add 3] ((NewAccounter 0 10).Add 3).2 (by decide)
      (Op.Read [1, 2]) (by decide)⟩

/-- C6: for every tracker state and every `n`, `SetTotal(n)` changes no field other than
`total`, so `Get()` is as before even when `current > n > 0`; a first `Stat()` that
follows reports `Total = n`; and `NewAccounter(0)`, `Add(100)`, `SetTotal(50)` leaves
`Get() = 100`. -/
theorem C6_SetTotal_frame (a : Accounter) (n : Int) :
    (a.SetTotal n).Get = a.Get ∧
    { a.SetTotal n with total := a.total } = a ∧
    (∀ now, a.finishOnce = false → a.IsFinished = .opened →
      ∃ s b, (a.SetTotal n).Stat now = some (s, b) ∧ s.Total = n) ∧
    (∀ now, (run [Op.Add 100, Op.SetTotal 50] (NewAccounter now 0)).map Accounter.Get
      = some 100) := by
  refine ⟨rfl, rfl, ?_, fun now => rfl⟩
  intro now hf hc
  obtain ⟨b, hb, _⟩ := Stat_first (a.SetTotal n) now hf hc
  exact ⟨_, b, hb, rfl⟩

theorem C6_SetTotal_frame_witness :
    ∃ s b, ((((NewAccounter 0 0).Add 100).2).SetTotal 50).Stat 7 = some (s, b) ∧ s.Total = 50 :=
  (C6_SetTotal_frame ((NewAccounter 0 0).Add 100).2 50).2.2.1 7 rfl rfl

/-- C7: on a tracker built by `NewAccounter(total)` and driven by any sequence of calls
other than `Stat`, the first `Stat()` completes and returns a snapshot whose `Transferred`
is the value `Get()` returns just before, and whose `Total` is the argument of the most
recent `SetTotal`, or `total` when there was none; `Stat` changes neither `current` nor
`total`. -/
theorem C7_first_Stat (now total : Int) (ops : List Op)
    (hns : ∀ op ∈ ops, op.isStat = false) (t : Int) :
    ∃ a s b, run ops (NewAccounter now total) = some a ∧ a.Stat t = some (s, b) ∧
      s.Transferred = a.Get ∧ s.Total = lastTotal total ops ∧
      b.current = a.current ∧ b.total = a.total := by
  obtain ⟨a, ha, hf, hc, ht⟩ := run_noStat now total ops hns
  obtain ⟨b, hb, h1, h2, _, _⟩ := Stat_first a t hf hc
  exact ⟨a, _, b, ha, hb, rfl, ht, h1, h2⟩

theorem C7_first_Stat_witness :
    (∀ op ∈ [Op.Add 5, Op.SetTotal 9, Op.Update 3, Op.Read [1], Op.Set 4],
        op.isStat = false) ∧
    ∃ a s b,
      run [Op.Add 5, Op.SetTotal 9, Op.Update 3, Op.Read [1], Op.Set 4] (NewAccounter 0 2)
        = some a ∧
      a.Stat 8 = some (s, b) ∧ s.Transferred = a.Get ∧
      s.Total = lastTotal 2 [Op.Add 5, Op.SetTotal 9, Op.Update 3, Op.Read [1], Op.Set 4] ∧
      b.current = a.current ∧ b.total = a.total :=
  ⟨by decide,
    C7_first_Stat 0 2 [Op.Add 5, Op.SetTotal 9, Op.Update 3, Op.Read [1], Op.Set 4]
      (by decide) 8⟩

/-- C8, as stated, fails: the first `Stat()` on a fresh `NewAccounter(0)` returns a
snapshot whose `Status` is not `"success"`. -/
theorem C8_Stat_status_not_success :
    ¬ ∀ (now total : Int) (ops : List Op) (t : Int) (a : Accounter),
        (∀ op ∈ ops, op.isStat = false) → run ops (NewAccounter now total) = some a →
        (a.Stat t).map (fun r => r.1.Status) = some "success" := by
  intro h
  have h1 := h 0 0 [] 1 (NewAccounter 0 0) (by decide) (by decide)
  revert h1
  decide

/-- C8 (amended): the snapshot returned by the first `Stat()` has `Status` equal to the
empty string, since `Stat` assigns only `Total`, `Transferred` and `Speed`; the string
`"success"` is stored by `JSON()`, in its own copy of the snapshot, before marshalling. -/
theorem C8_Stat_status_empty (now total : Int) (ops : List Op)
    (hns : ∀ op ∈ ops, op.isStat = false) (t : Int)
    (marshalIndent : AccountStat → String → String → String × Option String) :
    ∃ a s b, run ops (NewAccounter now total) = some a ∧ a.Stat t = some (s, b) ∧
      s.Status = "" ∧
      s.JSON marshalIndent = (marshalIndent { s with Status := "success" } "" " ").1 := by
  obtain ⟨a, ha, hf, hc, _⟩ := run_noStat now total ops hns
  obtain ⟨b, hb, _⟩ := Stat_first a t hf hc
  exact ⟨a, _, b, ha, hb, rfl, rfl⟩

theorem C8_Stat_status_empty_witness :
    (∀ op ∈ [Op.Add 5, Op.Update 3], op.isStat = false) ∧
    ∃ a s b, run [Op.Add 5, Op.Update 3] (NewAccounter 0 2) = some a ∧
      a.Stat 8 = some (s, b) ∧ s.Status = "" ∧
      s.JSON (fun c _ _ => (c.Status, none)) =
        ((fun c _ _ => (c.Status, none) : AccountStat → String → String → String × Option String)
          { s with Status := "success" } "" " ").1 :=
  ⟨by decide,
    C8_Stat_status_empty 0 2 [Op.Add 5, Op.Update 3] (by decide) 8
      (fun c _ _ => (c.Status, none))⟩

/-- C9: on a tracker built by `NewAccounter` on which `Stat` has been called at least
once, among any other calls, a further `Stat()` returns the zero-valued snapshot
(`Status` empty, `Total`, `Transferred` and `Speed` zero) and leaves every field of the
tracker as it was. -/
theorem C9_Stat_repeat (now total : Int) (ops : List Op)
    (hs : ops.any Op.isStat = true) (t : Int) :
    ∃ a, run ops (NewAccounter now total) = some a ∧
      a.Stat t = some ({ Status := "", Total := 0, Transferred := 0, Speed := 0 }, a) := by
  obtain ⟨a, ha, _, hf⟩ := run_Inv ops _ (NewAccounter_Inv now total)
  have hf2 : a.finishOnce = true := by
    rw [hf, hs]
    simp
  exact ⟨a, ha, Stat_again a t hf2⟩

theorem C9_Stat_repeat_witness :
    [Op.Add 5, Op.Stat 3, Op.Add 4, Op.SetTotal 9].any Op.isStat = true ∧
    ∃ a, run [Op.Add 5, Op.Stat 3, Op.Add 4, Op.SetTotal 9] (NewAccounter 0 2) = some a ∧
      a.Stat 8 = some ({ Status := "", Total := 0, Transferred := 0, Speed := 0 }, a) :=
  ⟨by decide, C9_Stat_repeat 0 2 [Op.Add 5, Op.Stat 3, Op.Add 4, Op.SetTotal 9] (by decide) 8⟩

/-- C10: every finite sequence of calls on a tracker built by `NewAccounter` runs to
completion without the panic of closing a closed channel; after it `IsFinished` is closed
exactly when the sequence contains a `Stat`, and so is the flag of `finishOnce`; the
statement `close(a.IsFinished)` is executed once when the sequence contains a `Stat` and
not at all otherwise.  Applied to every initial segment of a sequence, the channel is
open before the first `Stat` and closed from it on. -/
theorem C10_close_once (now total : Int) (ops : List Op) :
    ∃ a, run ops (NewAccounter now total) = some a ∧
      (a.IsFinished = .closed ↔ ∃ op ∈ ops, op.isStat = true) ∧
      (a.finishOnce = true ↔ ∃ op ∈ ops, op.isStat = true) ∧
      closeCount ops (NewAccounter now total) = (if ops.any Op.isStat then 1 else 0) ∧
      closeCount ops (NewAccounter now total) ≤ 1 := by
  obtain ⟨a, ha, hi, hf⟩ := run_Inv ops _ (NewAccounter_Inv now total)
  have hf2 : a.finishOnce = true ↔ ∃ op ∈ ops, op.isStat = true := by
    rw [hf]
    simp [NewAccounter, List.any_eq_true]
  have hcc := closeCount_Inv ops _ (NewAccounter_Inv now total)
  have hcc2 : closeCount ops (NewAccounter now total) = (if ops.any Op.isStat then 1 else 0) := by
    rw [hcc]
    rcases Bool.eq_false_or_eq_true (ops.any Op.isStat) with hany | hany <;>
      simp [NewAccounter, hany]
  refine ⟨a, ha, hi.trans hf2, hf2, hcc2, ?_⟩
  rw [hcc2]
  split <;> simp

/-! ## Sampler and display facts -/

theorem wrap64_zero : wrap64 0 = 0 := by decide

theorem Update_Idle (a : Accounter) (now : Int) (h : Idle a) : Idle (a.Update now) := by
  obtain ⟨h1, h2, h3⟩ := h
  unfold Accounter.Update
  simp only
  split
  · unfold Accounter.write
    simp only
    split
    · refine ⟨h1, h1, ?_⟩
      simp [h1, h2, wrap64_zero, float64OfInt64_zero, float64Div_zero_left]
    · exact ⟨h1, h1, h3⟩
  · exact ⟨h1, h2, h3⟩

theorem run_quiet_Idle (ops : List Op) (a : Accounter) (h : Idle a)
    (hq : ∀ op ∈ ops, op.isQuiet = true) : ∃ b, run ops a = some b ∧ Idle b := by
  induction ops generalizing a with
  | nil => exact ⟨a, rfl, h⟩
  | cons op ops ih =>
    have hop := hq op (List.mem_cons_self _ _)
    have hrest : ∀ o ∈ ops, o.isQuiet = true := fun o ho => hq o (List.mem_cons_of_mem _ ho)
    cases op with
    | Update t =>
      obtain ⟨b, hb, hI⟩ := ih (a.Update t) (Update_Idle a t h) hrest
      exact ⟨b, by simpa [run, step] using hb, hI⟩
    | Get =>
      obtain ⟨b, hb, hI⟩ := ih a h hrest
      exact ⟨b, by simpa [run, step] using hb, hI⟩
    | GetSpeed =>
      obtain ⟨b, hb, hI⟩ := ih a h hrest
      exact ⟨b, by simpa [run, step] using hb, hI⟩
    | SetTotal n =>
      obtain ⟨b, hb, hI⟩ := ih (a.SetTotal n) h hrest
      exact ⟨b, by simpa [run, step] using hb, hI⟩
    | Add n => simp [Op.isQuiet] at hop
    | Set n => simp [Op.isQuiet] at hop
    | Read q => simp [Op.isQuiet] at hop
    | Stat t => simp [Op.isQuiet] at hop

/-- C11: for every total, `GetSpeed()` on the tracker returned by `NewAccounter(total)`
is 0, it is still 0 after the startup `Update()` of the sampler at any clock reading, and
it stays 0 after any number of further samples as long as no `Add`, `Set` or `Read`
intervenes. -/
theorem C11_GetSpeed_initial (now0 total : Int) :
    (NewAccounter now0 total).GetSpeed = 0 ∧
    (∀ now, ((NewAccounter now0 total).Update now).GetSpeed = 0) ∧
    (∀ ops, (∀ op ∈ ops, op.isQuiet = true) →
      ∃ a, run ops (NewAccounter now0 total) = some a ∧ a.GetSpeed = 0) := by
  have h0 : Idle (NewAccounter now0 total) := ⟨rfl, rfl, rfl⟩
  refine ⟨rfl, fun now => (Update_Idle _ now h0).2.2, ?_⟩
  intro ops hq
  obtain ⟨b, hb, hI⟩ := run_quiet_Idle ops _ h0 hq
  exact ⟨b, hb, hI.2.2⟩

theorem C11_GetSpeed_initial_witness :
    ∃ a, run [Op.Update 63900000000000000000, Op.SetTotal 5, Op.Update 63900000000200000000]
        (NewAccounter 63900000000000000000 7) = some a ∧ a.GetSpeed = 0 :=
  (C11_GetSpeed_initial 63900000000000000000 7).2.2
    [Op.Update 63900000000000000000, Op.SetTotal 5, Op.Update 63900000000200000000]
    (by decide)

/-- C12: the code at the failing input.  With a byte formatter that yields the empty
string for 0, the snapshot with `Total = 1048576` and `Speed = 0` is rendered with the
speed segment `"0 MB"`: the branch taken for an empty string assigns the bare literal
and does not append the `"/s"` that the other branch appends, as it does here for
`Speed = 5`.  The line therefore ends in `"Speed: 0 MB"`, not in `"Speed: 0 MB/s"`. -/
theorem C12_String_empty_branch :
    (fun n : Int => if n = 0 then "" else "1.00 MiB") (float64ToInt64 0) = "" ∧
    AccountStat.speedBox (fun n => if n = 0 then "" else "1.00 MiB")
      { Status := "", Total := 1048576, Transferred := 0, Speed := 0 } = "0 MB" ∧
    AccountStat.String (fun n => if n = 0 then "" else "1.00 MiB")
      { Status := "", Total := 1048576, Transferred := 0, Speed := 0 }
      = "Total: 1.00 MiB, Transferred: , Speed: 0 MB" ∧
    ¬ ("Speed: 0 MB/s".data <:+
      (AccountStat.String (fun n => if n = 0 then "" else "1.00 MiB")
        { Status := "", Total := 1048576, Transferred := 0, Speed := 0 }).data) ∧
    AccountStat.speedBox (fun n => if n = 0 then "" else "1.00 MiB")
      { Status := "", Total := 1048576, Transferred := 0, Speed := 5 } = "1.00 MiB/s" := by
  decide

/-- C14: in every tracker state whose counter equals the last observed value
`currentValue`, `Update()` at any clock reading returns the state unchanged, every field
included, and so does any further `Update()`. -/
theorem C14_Update_unchanged (a : Accounter) (now : Int) (h : a.current = a.currentValue) :
    a.Update now = a ∧ ∀ later, (a.Update now).Update later = a := by
  have h1 : ∀ t, a.Update t = a := by
    intro t
    simp [Accounter.Update, h]
  exact ⟨h1 now, fun later => by rw [h1 now, h1 later]⟩

theorem C14_Update_unchanged_witness :
    ((NewAccounter 0 9).Update 5).current = ((NewAccounter 0 9).Update 5).currentValue ∧
    (((NewAccounter 0 9).Update 5).Update 8 = (NewAccounter 0 9).Update 5 ∧
      ∀ later, (((NewAccounter 0 9).Update 5).Update 8).Update later
        = (NewAccounter 0 9).Update 5) :=
  ⟨by decide, C14_Update_unchanged ((NewAccounter 0 9).Update 5) 8 (by decide)⟩

/-! ## Facts about `write` -/

theorem Time_Sub_eq {t u : Int} (h1 : minInt64 ≤ t - u) (h2 : t - u ≤ maxInt64) :
    Time.Sub t u = t - u := by
  unfold Time.Sub
  split
  · omega
  · split
    · omega
    · rfl

theorem Time_Sub_nonpos {t u : Int} (h : t - u ≤ 0) : Time.Sub t u ≤ 0 := by
  unfold Time.Sub minInt64 maxInt64
  split
  · decide
  · split
    · omega
    · exact h

theorem write_nonpos (a : Accounter) (now c : Int) (h : now - a.lastWriteTime ≤ 0) :
    a.write now c = (0, { a with lastWriteTime := now, lastWriteValue := c }) := by
  have hs := Time_Sub_nonpos h
  unfold Accounter.write
  simp only
  rw [if_neg (by omega)]

theorem write_pos (a : Accounter) (now c : Int) (h : 0 < Time.Sub now a.lastWriteTime) :
    a.write now c =
      (float64Div (float64OfInt64 (wrap64 (c - a.lastWriteValue)))
          (float64Div (float64OfInt64 (Time.Sub now a.lastWriteTime)) (float64OfInt64 Second)),
        { a with
          lastWriteTime := now
          lastWriteValue := c
          Speed := float64Div (float64OfInt64 (wrap64 (c - a.lastWriteValue)))
            (float64Div (float64OfInt64 (Time.Sub now a.lastWriteTime))
              (float64OfInt64 Second)) }) := by
  unfold Accounter.write
  simp only
  rw [if_pos h]

theorem write_bookkeeping (a : Accounter) (now c : Int) :
    (a.write now c).2.lastWriteTime = now ∧ (a.write now c).2.lastWriteValue = c ∧
    (a.write now c).2.currentValue = a.currentValue := by
  unfold Accounter.write
  simp only
  split <;> exact ⟨rfl, rfl, rfl⟩

theorem Update_recompute (a : Accounter) (now : Int) (h : a.current ≠ a.currentValue) :
    a.Update now = { (a.write now a.current).2 with currentValue := a.current } := by
  unfold Accounter.Update
  simp only
  rw [if_pos h]

theorem Read_currentValue (a : Accounter) (p : List UInt8) :
    (a.Read p).2.currentValue = a.currentValue := by
  simp only [Accounter.Read, Accounter.Add, Accounter.Get, Accounter.Set]
  split <;> rfl

theorem run_addSetRead (ops : List Op) (a : Accounter)
    (h : ∀ op ∈ ops, op.isAddSetRead = true) :
    ∃ b, run ops a = some b ∧ b.currentValue = a.currentValue := by
  induction ops generalizing a with
  | nil => exact ⟨a, rfl, rfl⟩
  | cons op ops ih =>
    have hop := h op (List.mem_cons_self _ _)
    have hrest : ∀ o ∈ ops, o.isAddSetRead = true :=
      fun o ho => h o (List.mem_cons_of_mem _ ho)
    cases op with
    | Add n =>
      obtain ⟨b, hb, hv⟩ := ih (a.Add n).2 hrest
      exact ⟨b, by simpa [run, step] using hb, by simpa [Accounter.Add] using hv⟩
    | Set n =>
      obtain ⟨b, hb, hv⟩ := ih (a.Set n) hrest
      exact ⟨b, by simpa [run, step] using hb, by simpa [Accounter.Set] using hv⟩
    | Read q =>
      obtain ⟨b, hb, hv⟩ := ih (a.Read q).2 hrest
      exact ⟨b, by simpa [run, step] using hb, by rw [hv, Read_currentValue]⟩
    | SetTotal n => simp [Op.isAddSetRead] at hop
    | Get => simp [Op.isAddSetRead] at hop
    | Update t => simp [Op.isAddSetRead] at hop
    | GetSpeed => simp [Op.isAddSetRead] at hop
    | Stat t => simp [Op.isAddSetRead] at hop

theorem Update_speed (a : Accounter) (now : Int) (hc : a.current ≠ a.currentValue)
    (hpos : 0 < Time.Sub now a.lastWriteTime) :
    (a.Update now).Speed =
      float64Div (float64OfInt64 (wrap64 (a.current - a.lastWriteValue)))
        (float64Div (float64OfInt64 (Time.Sub now a.lastWriteTime)) (float64OfInt64 Second)) := by
  rw [Update_recompute a now hc, write_pos a now a.current hpos]

theorem float64OfInt64_1000 : float64OfInt64 1000 = 1000 := by
  unfold float64OfInt64
  rw [roundFloat64_of_pos (by norm_num)]
  rw [roundPos_eq (-43) (1000 * 2 ^ 43) (by norm_num) (by norm_num) (by norm_num)
    (by norm_num)]
  norm_num

theorem float64OfInt64_600ms : float64OfInt64 600000000 = 600000000 := by
  unfold float64OfInt64
  rw [roundFloat64_of_pos (by norm_num)]
  rw [roundPos_eq (-23) (600000000 * 2 ^ 23) (by norm_num) (by norm_num) (by norm_num)
    (by norm_num)]
  norm_num

theorem float64Div_600ms_Second :
    float64Div 600000000 1000000000 = 5404319552844595 / 9007199254740992 := by
  unfold float64Div
  rw [roundFloat64_of_pos (by norm_num)]
  rw [roundPos_eq (-53) 5404319552844595 (by norm_num) (by norm_num) (by norm_num)
    (by norm_num)]
  norm_num

theorem float64Div_1000_600ms :
    float64Div 1000 (5404319552844595 / 9007199254740992)
      = 7330077518506667 / 4398046511104 := by
  unfold float64Div
  rw [roundFloat64_of_pos (by norm_num)]
  rw [roundPos_eq (-42) 7330077518506667 (by norm_num) (by norm_num) (by norm_num)
    (by norm_num)]
  norm_num

theorem float64Div_self_Second : float64Div 1000000000 1000000000 = 1 := by
  unfold float64Div
  rw [roundFloat64_of_pos (by norm_num)]
  rw [roundPos_eq (-52) (2 ^ 52) (by norm_num) (by norm_num) (by norm_num) (by norm_num)]
  norm_num

theorem float64Div_1000_one : float64Div 1000 1 = 1000 := by
  unfold float64Div
  rw [roundFloat64_of_pos (by norm_num)]
  rw [roundPos_eq (-43) (1000 * 2 ^ 43) (by norm_num) (by norm_num) (by norm_num)
    (by norm_num)]
  norm_num

theorem rate_1000_in_600ms :
    float64Div (float64OfInt64 ((((NewAccounter 63900000000000000000 0).Update 63900000000000000000).Add 1000).2.current - (((NewAccounter 63900000000000000000 0).Update 63900000000000000000).Add 1000).2.lastWriteValue))
        (float64Div (float64OfInt64 (63900000000600000000 - (((NewAccounter 63900000000000000000 0).Update 63900000000000000000).Add 1000).2.lastWriteTime))
          (float64OfInt64 1000000000))
      = 7330077518506667 / 4398046511104 := by
  have e1 : (((NewAccounter 63900000000000000000 0).Update 63900000000000000000).Add 1000).2.current = 1000 := by decide
  have e2 : (((NewAccounter 63900000000000000000 0).Update 63900000000000000000).Add 1000).2.lastWriteValue = 0 := by decide
  have e3 : (((NewAccounter 63900000000000000000 0).Update 63900000000000000000).Add 1000).2.lastWriteTime = 63900000000000000000 := by decide
  rw [e1, e2, e3]
  have e4 : (1000 : Int) - 0 = 1000 := by decide
  have e5 : (63900000000600000000 : Int) - 63900000000000000000 = 600000000 := by decide
  rw [e4, e5, float64OfInt64_1000, float64OfInt64_600ms, float64OfInt64_Second,
    float64Div_600ms_Second, float64Div_1000_600ms]

/-- C15, as stated, fails in three ways.  (1) The rate is a `float64`: for 1000 bytes in
600 ms, with every quantity in range, `Update()` stores `7330077518506667 / 2^42`, not
the rational `5000 / 3`.  (2) On a tracker built at a present-day clock reading,
`Add(1000)` and the first `Update()`: `lastWriteTime` is still the zero time, the elapsed
time exceeds the largest `time.Duration` and `Sub` returns that largest value.  (3) After
`Set(-2)`, `Update()`, `Set(9223372036854775807)`, the difference
`current - lastWriteValue` overflows `int64`, so one second later `Update()` stores a
negative rate. -/
theorem C15_Update_speed_fails :
    (¬ ∀ (now0 total : Int) (ops : List Op) (a : Accounter) (now : Int),
        run ops (NewAccounter now0 total) = some a → a.current ≠ a.currentValue →
        0 < now - a.lastWriteTime → now - a.lastWriteTime ≤ maxInt64 →
        inInt64 (a.current - a.lastWriteValue) →
        (a.Update now).Speed =
          ((a.current - a.lastWriteValue : Int) : ℚ) * 1000000000 /
            ((now - a.lastWriteTime : Int) : ℚ)) ∧
    (¬ ∀ (now0 total : Int) (ops : List Op) (a : Accounter) (now : Int),
        run ops (NewAccounter now0 total) = some a → a.current ≠ a.currentValue →
        0 < now - a.lastWriteTime → inInt64 (a.current - a.lastWriteValue) →
        (a.Update now).Speed =
          ((a.current - a.lastWriteValue : Int) : ℚ) * 1000000000 /
            ((now - a.lastWriteTime : Int) : ℚ)) ∧
    (¬ ∀ (now0 total : Int) (ops : List Op) (a : Accounter) (now : Int),
        run ops (NewAccounter now0 total) = some a → a.current ≠ a.currentValue →
        0 < now - a.lastWriteTime → now - a.lastWriteTime ≤ maxInt64 →
        (a.Update now).Speed =
          ((a.current - a.lastWriteValue : Int) : ℚ) * 1000000000 /
            ((now - a.lastWriteTime : Int) : ℚ)) := by
  refine ⟨?_, ?_, ?_⟩
  · intro h
    have h1 := h 63900000000000000000 0 [Op.Update 63900000000000000000, Op.Add 1000]
      (((NewAccounter 63900000000000000000 0).Update 63900000000000000000).Add 1000).2 63900000000600000000
      rfl (by decide) (by decide) (by decide) (by decide)
    have hs := Update_speed (((NewAccounter 63900000000000000000 0).Update 63900000000000000000).Add 1000).2
      63900000000600000000 (by decide) (by decide)
    have e1 : (((NewAccounter 63900000000000000000 0).Update 63900000000000000000).Add 1000).2.current = 1000 := by decide
    have e2 : (((NewAccounter 63900000000000000000 0).Update 63900000000000000000).Add 1000).2.lastWriteValue = 0 := by decide
    have e3 : (((NewAccounter 63900000000000000000 0).Update 63900000000000000000).Add 1000).2.lastWriteTime = 63900000000000000000 := by decide
    rw [hs, e1, e2, e3] at h1
    have e4 : wrap64 (1000 - 0) = 1000 := by decide
    have e5 : Time.Sub 63900000000600000000 63900000000000000000 = 600000000 := by decide
    rw [e4, e5] at h1
    simp only [Second] at h1
    rw [float64OfInt64_1000, float64OfInt64_600ms, float64OfInt64_Second,
      float64Div_600ms_Second, float64Div_1000_600ms] at h1
    norm_num at h1
  · intro h
    have h1 := h 63900000000000000000 0 [Op.Add 1000]
      ((NewAccounter 63900000000000000000 0).Add 1000).2 63900000000200000000
      rfl (by decide) (by decide) (by decide)
    have hs := Update_speed ((NewAccounter 63900000000000000000 0).Add 1000).2
      63900000000200000000 (by decide) (by decide)
    have e1 : ((NewAccounter 63900000000000000000 0).Add 1000).2.current = 1000 := by decide
    have e2 : ((NewAccounter 63900000000000000000 0).Add 1000).2.lastWriteValue = 0 := by
      decide
    have e3 : ((NewAccounter 63900000000000000000 0).Add 1000).2.lastWriteTime = 0 := by
      decide
    rw [hs, e1, e2, e3] at h1
    have e4 : wrap64 (1000 - 0) = 1000 := by decide
    have e5 : Time.Sub 63900000000200000000 0 = 9223372036854775807 := by decide
    rw [e4, e5] at h1
    simp only [Second] at h1
    have hb := speed_rel_error 1000 9223372036854775807 (by norm_num)
    rw [h1] at hb
    have hpos : (0 : ℚ) < ((1000 : Int) : ℚ) * 1000000000 / ((9223372036854775807 : Int) : ℚ) := by
      norm_num
    rw [abs_of_pos hpos] at hb
    have h2 := (abs_le.1 hb).1
    norm_num at h2
  · intro h
    have h1 := h 63900000000000000000 0
      [Op.Set (-2), Op.Update 63900000000000000000, Op.Set 9223372036854775807]
      ((((NewAccounter 63900000000000000000 0).Set (-2)).Update 63900000000000000000).Set 9223372036854775807)
      63900000001000000000 rfl (by decide) (by decide) (by decide)
    have hs := Update_speed ((((NewAccounter 63900000000000000000 0).Set (-2)).Update 63900000000000000000).Set 9223372036854775807)
      63900000001000000000 (by decide) (by decide)
    have e1 : ((((NewAccounter 63900000000000000000 0).Set (-2)).Update 63900000000000000000).Set 9223372036854775807).current = 9223372036854775807 := by decide
    have e2 : ((((NewAccounter 63900000000000000000 0).Set (-2)).Update 63900000000000000000).Set 9223372036854775807).lastWriteValue = -2 := by decide
    have e3 : ((((NewAccounter 63900000000000000000 0).Set (-2)).Update 63900000000000000000).Set 9223372036854775807).lastWriteTime = 63900000000000000000 := by decide
    rw [hs, e1, e2, e3] at h1
    have e4 : wrap64 (9223372036854775807 - -2) = -9223372036854775807 := by decide
    have e5 : Time.Sub 63900000001000000000 63900000000000000000 = 1000000000 := by decide
    rw [e4, e5] at h1
    simp only [Second] at h1
    have hb := speed_rel_error (-9223372036854775807) 1000000000 (by norm_num)
    rw [h1] at hb
    have hneg : ((-9223372036854775807 : Int) : ℚ) * 1000000000 / ((1000000000 : Int) : ℚ) < 0 := by
      norm_num
    rw [abs_of_neg hneg] at hb
    have h2 := (abs_le.1 hb).2
    norm_num at h2

/-- C15 (amended): in every tracker state with `current ≠ currentValue`, at every clock
reading `now` whose distance from `lastWriteTime` is positive and at most the largest
`time.Duration`, and with `current - lastWriteValue` within `int64`, `Update()` sets
`Speed` to the `float64` quotient
`float64(current - lastWriteValue) / (float64(elapsedNanoseconds) / float64(10^9))`,
every conversion and division rounded to the nearest `float64`; that value is within a
relative error of `2^-50` of the rational
`(current - lastWriteValue) * 10^9 / elapsedNanoseconds`; and `Update()` sets
`lastWriteTime = now`, `lastWriteValue = current` and `currentValue = current`. -/
theorem C15_Update_speed (a : Accounter) (now : Int) (hc : a.current ≠ a.currentValue)
    (ht : 0 < now - a.lastWriteTime) (hsat : now - a.lastWriteTime ≤ maxInt64)
    (hv : inInt64 (a.current - a.lastWriteValue)) :
    (a.Update now).Speed =
      float64Div (float64OfInt64 (a.current - a.lastWriteValue))
        (float64Div (float64OfInt64 (now - a.lastWriteTime)) (float64OfInt64 1000000000)) ∧
    |(a.Update now).Speed -
        ((a.current - a.lastWriteValue : Int) : ℚ) * 1000000000 /
          ((now - a.lastWriteTime : Int) : ℚ)|
      ≤ |((a.current - a.lastWriteValue : Int) : ℚ) * 1000000000 /
          ((now - a.lastWriteTime : Int) : ℚ)| / 2 ^ 50 ∧
    (a.Update now).lastWriteTime = now ∧
    (a.Update now).lastWriteValue = a.current ∧
    (a.Update now).currentValue = a.current := by
  have hsub : Time.Sub now a.lastWriteTime = now - a.lastWriteTime :=
    Time_Sub_eq (by unfold minInt64; omega) hsat
  have hpos : 0 < Time.Sub now a.lastWriteTime := by rw [hsub]; exact ht
  have hS : (a.Update now).Speed =
      float64Div (float64OfInt64 (a.current - a.lastWriteValue))
        (float64Div (float64OfInt64 (now - a.lastWriteTime))
          (float64OfInt64 1000000000)) := by
    rw [Update_speed a now hc hpos, hsub, wrap64_of_inInt64 hv]
    rfl
  refine ⟨hS, ?_, ?_, ?_, ?_⟩
  · rw [hS]
    exact speed_rel_error _ _ ht
  · rw [Update_recompute a now hc]
    exact (write_bookkeeping a now a.current).1
  · rw [Update_recompute a now hc]
    exact (write_bookkeeping a now a.current).2.1
  · rw [Update_recompute a now hc]

theorem C15_Update_speed_witness :
    (((NewAccounter 63900000000000000000 0).Update 63900000000000000000).Add 1000).2.current ≠ (((NewAccounter 63900000000000000000 0).Update 63900000000000000000).Add 1000).2.currentValue ∧
    0 < (63900000000600000000 : Int) - (((NewAccounter 63900000000000000000 0).Update 63900000000000000000).Add 1000).2.lastWriteTime ∧
    (63900000000600000000 : Int) - (((NewAccounter 63900000000000000000 0).Update 63900000000000000000).Add 1000).2.lastWriteTime ≤ maxInt64 ∧
    inInt64 ((((NewAccounter 63900000000000000000 0).Update 63900000000000000000).Add 1000).2.current - (((NewAccounter 63900000000000000000 0).Update 63900000000000000000).Add 1000).2.lastWriteValue) ∧
    (((((NewAccounter 63900000000000000000 0).Update 63900000000000000000).Add 1000).2.Update 63900000000600000000).Speed =
      float64Div (float64OfInt64 ((((NewAccounter 63900000000000000000 0).Update 63900000000000000000).Add 1000).2.current - (((NewAccounter 63900000000000000000 0).Update 63900000000000000000).Add 1000).2.lastWriteValue))
        (float64Div (float64OfInt64 (63900000000600000000 - (((NewAccounter 63900000000000000000 0).Update 63900000000000000000).Add 1000).2.lastWriteTime))
          (float64OfInt64 1000000000)) ∧
    |((((NewAccounter 63900000000000000000 0).Update 63900000000000000000).Add 1000).2.Update 63900000000600000000).Speed -
        (((((NewAccounter 63900000000000000000 0).Update 63900000000000000000).Add 1000).2.current - (((NewAccounter 63900000000000000000 0).Update 63900000000000000000).Add 1000).2.lastWriteValue : Int) : ℚ) * 1000000000 /
          ((63900000000600000000 - (((NewAccounter 63900000000000000000 0).Update 63900000000000000000).Add 1000).2.lastWriteTime : Int) : ℚ)|
      ≤ |(((((NewAccounter 63900000000000000000 0).Update 63900000000000000000).Add 1000).2.current - (((NewAccounter 63900000000000000000 0).Update 63900000000000000000).Add 1000).2.lastWriteValue : Int) : ℚ) * 1000000000 /
          ((63900000000600000000 - (((NewAccounter 63900000000000000000 0).Update 63900000000000000000).Add 1000).2.lastWriteTime : Int) : ℚ)| / 2 ^ 50 ∧
    ((((NewAccounter 63900000000000000000 0).Update 63900000000000000000).Add 1000).2.Update 63900000000600000000).lastWriteTime = 63900000000600000000 ∧
    ((((NewAccounter 63900000000000000000 0).Update 63900000000000000000).Add 1000).2.Update 63900000000600000000).lastWriteValue = (((NewAccounter 63900000000000000000 0).Update 63900000000000000000).Add 1000).2.current ∧
    ((((NewAccounter 63900000000000000000 0).Update 63900000000000000000).Add 1000).2.Update 63900000000600000000).currentValue = (((NewAccounter 63900000000000000000 0).Update 63900000000000000000).Add 1000).2.current) ∧
    ((((NewAccounter 63900000000000000000 0).Update 63900000000000000000).Add 1000).2.Update 63900000000600000000).Speed = 7330077518506667 / 4398046511104 :=
  ⟨by decide, by decide, by decide, by decide,
    C15_Update_speed (((NewAccounter 63900000000000000000 0).Update 63900000000000000000).Add 1000).2 63900000000600000000 (by decide) (by decide) (by decide)
      (by decide),
    (C15_Update_speed (((NewAccounter 63900000000000000000 0).Update 63900000000000000000).Add 1000).2 63900000000600000000 (by decide) (by decide) (by decide)
      (by decide)).1.trans rate_1000_in_600ms⟩

/-- C16: in every tracker state, for every counter value `c` and every clock reading
`now` with `now - lastWriteTime ≤ 0`, `write(c)` returns the rate 0 and only records
`lastWriteTime = now` and `lastWriteValue = c`, computing no quotient; a first `Stat()`
at such a clock reading completes and reports `Speed = 0`. -/
theorem C16_write_nonpositive_elapsed (a : Accounter) (c now : Int)
    (h : now - a.lastWriteTime ≤ 0) :
    a.write now c = (0, { a with lastWriteTime := now, lastWriteValue := c }) ∧
    (a.finishOnce = false → a.IsFinished = .opened →
      ∃ s b, a.Stat now = some (s, b) ∧ s.Speed = 0) := by
  refine ⟨write_nonpos a now c h, ?_⟩
  intro hf hc
  obtain ⟨b, hb, _⟩ := Stat_first a now hf hc
  refine ⟨_, b, hb, ?_⟩
  have hw := write_nonpos { a with IsFinished := .closed } now a.current h
  simp only [hw]

theorem C16_write_nonpositive_elapsed_witness :
    (5 : Int) - ((NewAccounter 0 9).Update 5).lastWriteTime ≤ 0 ∧
    (((NewAccounter 0 9).Update 5).write 5 700 =
        (0, { (NewAccounter 0 9).Update 5 with lastWriteTime := 5, lastWriteValue := 700 }) ∧
      (((NewAccounter 0 9).Update 5).finishOnce = false →
        ((NewAccounter 0 9).Update 5).IsFinished = .opened →
        ∃ s b, ((NewAccounter 0 9).Update 5).Stat 5 = some (s, b) ∧ s.Speed = 0)) :=
  ⟨by decide, C16_write_nonpositive_elapsed ((NewAccounter 0 9).Update 5) 700 5 (by decide)⟩

/-- C17, as stated, fails: after `NewAccounter(0)` and `Set(-1)` the counter equals the
initial `currentValue`, so the first `Update()` returns without calling `write` and
`lastWriteTime` is not set to the clock reading. -/
theorem C17_first_Update_skipped :
    ¬ ∀ (now0 total : Int) (ops : List Op) (a : Accounter) (now : Int),
        (∀ op ∈ ops, op.isAddSetRead = true) → run ops (NewAccounter now0 total) = some a →
        (a.Update now).lastWriteTime = now ∧ (a.Update now).currentValue = a.Get := by
  intro h
  have h1 := h 63900000000000000000 0 [Op.Set (-1)]
    ((NewAccounter 63900000000000000000 0).Set (-1)) 63900000000200000000
    (by decide) (by decide)
  revert h1
  decide

/-- C17 (amended): on a tracker built by `NewAccounter(total)`, after any `Add`, `Set`
and `Read` calls that leave the counter different from -1, the first `Update()` takes the
recompute branch: it calls `write` with the observed counter and sets `lastWriteTime` to
the clock reading, `lastWriteValue` and `currentValue` to the observed counter. -/
theorem C17_first_Update_recomputes (now0 total : Int) (ops : List Op)
    (hops : ∀ op ∈ ops, op.isAddSetRead = true) (now : Int) :
    ∃ a, run ops (NewAccounter now0 total) = some a ∧
      (a.Get ≠ -1 →
        a.Update now = { (a.write now a.Get).2 with currentValue := a.Get } ∧
        (a.Update now).lastWriteTime = now ∧
        (a.Update now).lastWriteValue = a.Get ∧
        (a.Update now).currentValue = a.Get) := by
  obtain ⟨a, ha, hv⟩ := run_addSetRead ops _ hops
  refine ⟨a, ha, ?_⟩
  intro hne
  have hc : a.current ≠ a.currentValue := by
    rw [hv]
    simpa [Accounter.Get, NewAccounter] using hne
  have hu := Update_recompute a now hc
  refine ⟨hu, ?_, ?_, ?_⟩
  · rw [hu]
    exact (write_bookkeeping a now a.current).1
  · rw [hu]
    exact (write_bookkeeping a now a.current).2.1
  · rw [hu]
    rfl

theorem C17_first_Update_recomputes_witness :
    (∀ op ∈ [Op.Add 5, Op.Read [1, 2], Op.Set 3], op.isAddSetRead = true) ∧
    ∃ a, run [Op.Add 5, Op.Read [1, 2], Op.Set 3] (NewAccounter 0 0) = some a ∧
      (a.Get ≠ -1 →
        a.Update 7 = { (a.write 7 a.Get).2 with currentValue := a.Get } ∧
        (a.Update 7).lastWriteTime = 7 ∧
        (a.Update 7).lastWriteValue = a.Get ∧
        (a.Update 7).currentValue = a.Get) :=
  ⟨by decide,
    C17_first_Update_recomputes 0 0 [Op.Add 5, Op.Read [1, 2], Op.Set 3] (by decide) 7⟩

theorem GetSpeed_eq (a : Accounter) : a.GetSpeed = a.Speed := rfl

theorem Speed_after_one_second :
    ((((NewAccounter 63900000000000000000 0).Update 63900000000000000000).Add 1000).2.Update
      63900000001000000000).Speed = 1000 := by
  have hu := Update_speed (((NewAccounter 63900000000000000000 0).Update 63900000000000000000).Add 1000).2
    63900000001000000000 (by decide) (by decide)
  have e1 : (((NewAccounter 63900000000000000000 0).Update 63900000000000000000).Add 1000).2.current = 1000 := by decide
  have e2 : (((NewAccounter 63900000000000000000 0).Update 63900000000000000000).Add 1000).2.lastWriteValue = 0 := by decide
  have e3 : (((NewAccounter 63900000000000000000 0).Update 63900000000000000000).Add 1000).2.lastWriteTime = 63900000000000000000 := by decide
  have e4 : wrap64 (1000 - 0) = 1000 := by decide
  have e5 : Time.Sub 63900000001000000000 63900000000000000000 = 1000000000 := by decide
  rw [e1, e2, e3, e4, e5] at hu
  simp only [Second] at hu
  rw [float64OfInt64_1000, float64OfInt64_Second, float64Div_self_Second,
    float64Div_1000_one] at hu
  exact hu

theorem GetSpeed_after_one_second :
    ((((NewAccounter 63900000000000000000 0).Update 63900000000000000000).Add 1000).2.Update
      63900000001000000000).GetSpeed = 1000 :=
  (GetSpeed_eq _).trans Speed_after_one_second

/-- C18: in every tracker state, for every counter value `c` and every clock reading
`now` with `now - lastWriteTime ≤ 0`, `write(c)` returns 0 but leaves the stored `Speed`
as it was, while setting `lastWriteTime = now` and `lastWriteValue = c`; so a first
`Stat()` at such a clock reading returns a snapshot with `Speed = 0` while `GetSpeed()`
afterwards still returns the previous rate, which differs from the snapshot whenever
that rate is not 0. -/
theorem C18_write_keeps_Speed (a : Accounter) (c now : Int)
    (h : now - a.lastWriteTime ≤ 0) :
    (a.write now c).1 = 0 ∧
    (a.write now c).2.Speed = a.Speed ∧
    (a.write now c).2.lastWriteTime = now ∧
    (a.write now c).2.lastWriteValue = c ∧
    (a.finishOnce = false → a.IsFinished = .opened →
      ∃ s b, a.Stat now = some (s, b) ∧ s.Speed = 0 ∧ b.GetSpeed = a.GetSpeed ∧
        (a.GetSpeed ≠ 0 → b.GetSpeed ≠ s.Speed)) := by
  have hw := write_nonpos a now c h
  refine ⟨by rw [hw], by rw [hw], by rw [hw], by rw [hw], ?_⟩
  intro hf hc
  have hw2 := write_nonpos { a with IsFinished := .closed } now a.current h
  have h1 : ({ a with IsFinished := Chan.closed }.write now a.current).1 = 0 := by rw [hw2]
  have h2 : ({ a with IsFinished := Chan.closed }.write now a.current).2.Speed = a.Speed := by
    rw [hw2]
  refine ⟨_, _, Stat_first_eq a now hf hc, h1, h2, ?_⟩
  intro hne
  show ({ a with IsFinished := Chan.closed }.write now a.current).2.Speed ≠
    ({ a with IsFinished := Chan.closed }.write now a.current).1
  rw [h1, h2]
  exact hne

theorem C18_write_keeps_Speed_witness :
    (63900000001000000000 : Int) -
      ((((NewAccounter 63900000000000000000 0).Update 63900000000000000000).Add 1000).2.Update
        63900000001000000000).lastWriteTime ≤ 0 ∧
    ∃ s b,
      ((((NewAccounter 63900000000000000000 0).Update 63900000000000000000).Add 1000).2.Update
        63900000001000000000).Stat 63900000001000000000 = some (s, b) ∧
      s.Speed = 0 ∧ b.GetSpeed = 1000 :=
  ⟨by decide, by
    obtain ⟨s, b, hs, h0, hb, _⟩ := (C18_write_keeps_Speed
      ((((NewAccounter 63900000000000000000 0).Update 63900000000000000000).Add 1000).2.Update
        63900000001000000000) 0 63900000001000000000 (by decide)).2.2.2.2
      (by decide) (by decide)
    exact ⟨s, b, hs, h0, hb.trans GetSpeed_after_one_second⟩⟩

end Minio
